import Mathlib

/-!
# Verification of the OpenRouter agent runtime (`packages/shared/src/config/models.ts`)

Shallow embedding of the `OpenRouterRuntime` class: backend selection,
the SSE streaming transport with its tool-call aggregator, the bounded
round loop of `sendMessage`, tool dispatch, and the `chat` wrapper.

Modelling conventions:
* JS strings are Lean `String`s; an optional / possibly-`undefined` string
  field is `Option String`, and JS truthiness tests on such a field
  (`undefined` and `""` are falsy) are the `truthy` predicate.
* Asynchronous generators are functions returning the list of yielded
  events together with either a final value (`Except.ok`) or the thrown
  error's message (`Except.error`); events yielded before a throw are kept.
* Platform primitives (`fetch`, `JSON.parse`, `JSON.stringify`, the MCP
  client, the in-process tool handlers) are parameters: the runtime code
  only observes their outcome, which the parameter supplies.
-/

namespace CraftAgents

/-- JS truthiness of an optional string field: `undefined` and `""` are falsy. -/
def truthy (o : Option String) : Bool :=
  !(o.getD "").isEmpty

/-- JS `s.startsWith(p)`, modelled on the character lists of the strings. -/
def strStartsWith (s p : String) : Bool :=
  p.data.isPrefixOf s.data

/-- JS `s.trim()`, modelled on the character list: strip leading and
trailing whitespace. -/
def strTrim (s : String) : String :=
  String.mk (((s.data.dropWhile Char.isWhitespace).reverse.dropWhile Char.isWhitespace).reverse)

/-- `OpenRouterToolCall` (models.ts:174-181): `{id, type:'function', function:{name, arguments}}`.
The constant `type: 'function'` tag is omitted. -/
structure ToolCall where
  id : String
  name : String
  arguments : String
deriving DecidableEq, Repr

/-- One streamed tool-call delta `choices[0].delta.tool_calls[i]`
(models.ts:199-207): `{index, id?, type?, function?: {name?, arguments?}}`.
The optional nested `function` object is flattened: `name` / `arguments`
are `none` when `function` is absent or the field is absent. -/
structure ToolCallFragment where
  index : Nat
  id : Option String
  name : Option String
  arguments : Option String
deriving DecidableEq, Repr

/-- The per-fragment merge of models.ts:592-594: a truthy `id` overwrites,
a truthy `function.name` overwrites, a truthy `function.arguments` is
appended to the accumulated arguments. -/
def mergeFragment (existing : ToolCall) (tc : ToolCallFragment) : ToolCall :=
  let e1 := if truthy tc.id then { existing with id := tc.id.getD "" } else existing
  let e2 := if truthy tc.name then { e1 with name := tc.name.getD "" } else e1
  if truthy tc.arguments then
    { e2 with arguments := e2.arguments ++ tc.arguments.getD "" }
  else e2

/-- Lookup in the `toolCallsByIndex` map (a JS `Map<number, OpenRouterToolCall>`,
modelled as an insertion-ordered association list). -/
def mapGet (m : List (Nat × ToolCall)) (k : Nat) : Option ToolCall :=
  match m with
  | [] => none
  | (k', v') :: rest => if k' = k then some v' else mapGet rest k

/-- `Map.set` semantics: replace the value at an existing key in place,
otherwise append the new binding at the end (JS `Map` insertion order). -/
def mapSet (m : List (Nat × ToolCall)) (k : Nat) (v : ToolCall) : List (Nat × ToolCall) :=
  match m with
  | [] => [(k, v)]
  | (k', v') :: rest => if k' = k then (k, v) :: rest else (k', v') :: mapSet rest k v

/-- models.ts:585-597: fetch or default the entry for `tc.index`
(default id `"toolcall_" + index` via `??`, empty name and arguments),
merge the fragment into it, and store it back. -/
def applyFragment (m : List (Nat × ToolCall)) (tc : ToolCallFragment) : List (Nat × ToolCall) :=
  let existing := (mapGet m tc.index).getD
    { id := tc.id.getD ("toolcall_" ++ toString tc.index), name := "", arguments := "" }
  mapSet m tc.index (mergeFragment existing tc)

/-- Feed a sequence of fragments into a fresh aggregator. -/
def aggregateFragments (fs : List ToolCallFragment) : List (Nat × ToolCall) :=
  fs.foldl applyFragment []

/-- Ordering of aggregator entries by ascending fragment index,
the comparator `(a, b) => a[0] - b[0]` of models.ts:641. -/
def idxLe (a b : Nat × ToolCall) : Prop := a.1 ≤ b.1

instance : DecidableRel idxLe := fun a b => Nat.decLe a.1 b.1

instance : IsTotal (Nat × ToolCall) idxLe := ⟨fun a b => Nat.le_total a.1 b.1⟩

instance : IsTrans (Nat × ToolCall) idxLe := ⟨fun _ _ _ => Nat.le_trans⟩

/-- Finalization of the aggregator (models.ts:641): sort the entries in
ascending index order, project to the calls, and keep only calls whose
`name` is non-empty. The JS engine's comparator sort over the (distinct)
numeric keys is modelled by insertion sort over `idxLe`. -/
def finalizeToolCalls (m : List (Nat × ToolCall)) : List ToolCall :=
  ((List.insertionSort idxLe m).map Prod.snd).filter (fun tc => !tc.name.isEmpty)

/-- The same finalization with the fragment indices retained (used to state
which indices survive finalization). -/
def finalizeEntries (m : List (Nat × ToolCall)) : List (Nat × ToolCall) :=
  (List.insertionSort idxLe m).filter (fun p => !p.2.name.isEmpty)

/-- models.ts:277: a character admitted unchanged by the sanitizer regex
`[^a-zA-Z0-9_-]` of `toOpenAiToolName`. -/
def isAllowedChar (c : Char) : Bool :=
  ('a' ≤ c && c ≤ 'z') || ('A' ≤ c && c ≤ 'Z') || ('0' ≤ c && c ≤ '9') || c = '_' || c = '-'

/-- models.ts:966-969: `sourceSlug + "__" + toolName`, every character
outside `[a-zA-Z0-9_-]` replaced by `_`, truncated to 64 characters. -/
def toOpenAiToolName (sourceSlug toolName : String) : String :=
  let raw := sourceSlug ++ "__" ++ toolName
  String.mk ((raw.data.map (fun c => if isAllowedChar c then c else '_')).take 64)

/-! ## Backend selection -/

/-- models.ts:275-278: native OpenAI models start with `gpt-`
(not `openai/gpt-`, which is an OpenRouter model id). -/
def isOpenAIModel (model : String) : Bool :=
  strStartsWith model "gpt-" && !(strStartsWith model "openai/")

/-- models.ts:283-287. -/
def getApiEndpoint (model : String) : String :=
  if isOpenAIModel model then "https://api.openai.com/v1/chat/completions"
  else "https://openrouter.ai/api/v1/chat/completions"

/-- Provider tag used in transport error messages (models.ts:500, 567). -/
def providerName (model : String) : String :=
  if isOpenAIModel model then "OpenAI" else "OpenRouter"

/-- The three transports named by the specification. -/
inductive Backend where
  | directAPI
  | router
  | subprocess
deriving DecidableEq, Repr

/-- The backend classification `sendMessage` actually performs
(models.ts:316 and 365): models for which `isOpenAIModel` holds are run
through the local Codex CLI subprocess; every other model is sent to the
OpenRouter HTTP API. No model reaches the direct OpenAI HTTP endpoint from
`sendMessage`: `getApiEndpoint` would produce it, but `callOpenRouterStream`
is only invoked on models for which `isOpenAIModel` is false. -/
def selectBackend (model : String) : Backend :=
  if isOpenAIModel model then Backend.subprocess else Backend.router

/-! ## Streamed events and SSE chunks -/

/-- `AgentEvent` as emitted by the runtime. `J` is the type of parsed JSON
values used for tool inputs (the runtime never inspects them). Fields that
the code sometimes leaves `undefined` are `Option`s. -/
inductive AgentEvent (J : Type) where
  | text_delta (text : String) (turnId : Option String)
  | text_complete (text : String) (isIntermediate : Option Bool) (turnId : Option String)
  | tool_start (toolUseId : String) (toolName : String) (input : J) (turnId : Option String)
  | tool_result (toolUseId : String) (result : String) (isError : Bool) (input : J) (turnId : Option String)
  | error (message : String)
  | complete
deriving DecidableEq, Repr

/-- `choices[0].delta` of a streamed chunk (models.ts:196-207). -/
structure Delta where
  content : Option String
  tool_calls : Option (List ToolCallFragment)
deriving DecidableEq, Repr

/-- One element of `chunk.choices`. -/
structure Choice where
  delta : Option Delta
deriving DecidableEq, Repr

/-- `OpenRouterStreamChunk` (models.ts:192-211). The `error` field is
`some m` when the chunk carries a truthy `error` value whose extracted
message (models.ts:568-571) is `m`, `none` otherwise. -/
structure StreamChunk where
  id : Option String
  error : Option String
  choices : Option (List Choice)
deriving DecidableEq, Repr

/-- One flushed SSE event payload, after the framing of models.ts:552-564:
an empty payload or the `[DONE]` sentinel is a no-op, a payload that fails
`JSON.parse` is silently dropped, anything else is a parsed chunk. -/
inductive SseData where
  | done
  | malformed
  | chunk (c : StreamChunk)
deriving DecidableEq, Repr

/-- Mutable state of `callOpenRouterStream`'s read loop
(models.ts:548-550). -/
structure StreamState where
  content : String
  turnId : Option String
  toolCallsByIndex : List (Nat × ToolCall)
deriving DecidableEq, Repr

def initStreamState : StreamState := { content := "", turnId := none, toolCallsByIndex := [] }

/-- The aggregate returned when the stream ends (models.ts:639-643). -/
structure Aggregate where
  content : String
  toolCalls : List ToolCall
  turnId : Option String
deriving DecidableEq, Repr

def streamAggregate (st : StreamState) : Aggregate :=
  { content := st.content
    toolCalls := finalizeToolCalls st.toolCallsByIndex
    turnId := st.turnId }

/-- `flushEvent` (models.ts:552-606) on one flushed payload: a chunk with a
truthy `error` throws; otherwise `turnId` is set once from a truthy
`chunk.id`, `delta.content` (a non-empty string) is appended to the running
content, tool-call fragments are merged, and the content delta is re-emitted
as a `text_delta` event. -/
def processData {J : Type} (model : String) (s : StreamState) :
    SseData → List (AgentEvent J) × Except String StreamState
  | .done => ([], .ok s)
  | .malformed => ([], .ok s)
  | .chunk c =>
    match c.error with
    | some m => ([], .error (providerName model ++ " stream error: " ++ m))
    | none =>
      let s1 := if !truthy s.turnId && truthy c.id then { s with turnId := c.id } else s
      match (c.choices.getD []).head? >>= (fun ch => ch.delta) with
      | none => ([], .ok s1)
      | some d =>
        let s2 := if truthy d.content
          then { s1 with content := s1.content ++ d.content.getD "" } else s1
        let s3 :=
          match d.tool_calls with
          | some tcs => { s2 with toolCallsByIndex := tcs.foldl applyFragment s2.toolCallsByIndex }
          | none => s2
        (if truthy d.content then [AgentEvent.text_delta (d.content.getD "") s3.turnId] else [],
         .ok s3)

/-- The read loop of `callOpenRouterStream` over the flushed payloads:
yields the `text_delta` events in order and either the final state or the
thrown error (events yielded before the throw are kept). -/
def runChunks {J : Type} (model : String) (s : StreamState) :
    List SseData → List (AgentEvent J) × Except String StreamState
  | [] => ([], .ok s)
  | d :: ds =>
    match processData (J := J) model s d with
    | (evs, .error e) => (evs, .error e)
    | (evs, .ok s') =>
      let (evs', r) := runChunks model s' ds
      (evs ++ evs', r)

/-- Concatenation, in emission order, of the `text` fields of the
`text_delta` events in an event list. -/
def textDeltaConcat {J : Type} : List (AgentEvent J) → String
  | [] => ""
  | AgentEvent.text_delta t _ :: rest => t ++ textDeltaConcat rest
  | _ :: rest => textDeltaConcat rest

/-- Classifier for `error` events. -/
def isErrorEvent {J : Type} : AgentEvent J → Bool
  | .error _ => true
  | _ => false

/-- Classifier for `text_delta` events. -/
def isTextDelta {J : Type} : AgentEvent J → Bool
  | .text_delta _ _ => true
  | _ => false

/-- Outcome of the `fetch` + response probing of models.ts:487-541, as the
round loop observes it: `fail` models a throw (abort, non-2xx status,
missing body, or non-stream parse error), `nonStream` the non-event-stream
JSON fallback (models.ts:517-541) whose already-shaped aggregate is
returned without any `text_delta` event, `stream` an event-stream body
presented as its flushed payloads. -/
inductive FetchOutcome where
  | fail (e : String)
  | nonStream (agg : Aggregate)
  | stream (ds : List SseData)
deriving DecidableEq, Repr

/-- `callOpenRouterStream` (models.ts:468-644) as the round loop observes
it: the events it yields plus either the `{content, toolCalls, turnId}`
aggregate or the thrown error. -/
def callOpenRouterStream {J : Type} (model : String) :
    FetchOutcome → List (AgentEvent J) × Except String Aggregate
  | .fail e => ([], .error e)
  | .nonStream agg => ([], .ok agg)
  | .stream ds =>
    match runChunks (J := J) model initStreamState ds with
    | (evs, .ok st) => (evs, .ok (streamAggregate st))
    | (evs, .error e) => (evs, .error e)

/-! ## Conversation orchestrator (`sendMessage`, models.ts:299-462) -/

/-- `OpenRouterMessage` (models.ts:167-172), with string content (the
content-block-list alternative is only consumed by `buildCodexPrompt`,
whose flattening the codex oracle absorbs). -/
structure Message where
  role : String
  content : String
  tool_call_id : Option String := none
  tool_calls : Option (List ToolCall) := none
deriving DecidableEq, Repr

/-- models.ts:409-414: `JSON.parse(toolCall.function.arguments || '{}')`
with `{}` as fallback on a parse failure. `parse` abstracts the platform
`JSON.parse` at this call site and `emptyObj` the `{}` literal assigned in
the `catch` branch; the string `"\x7b\x7d"` is the two-character text `{}`. -/
def parseToolInput {J : Type} (parse : String → Option J) (emptyObj : J)
    (arguments : String) : J :=
  match parse (if arguments = "" then "\x7b\x7d" else arguments) with
  | some v => v
  | none => emptyObj

/-- The sequential tool-execution loop of models.ts:407-455: for each call,
parse its input, emit `tool_start`, run the dispatcher (`execTool` models
`executeToolCall`, `Except.error` a thrown error), emit `tool_result`
(with `isError` flagged on a catch), and append a `tool`-role history
message carrying the result or the error message either way. Returns the
yielded events and the appended history messages, in order. -/
def execToolCalls {J : Type} (parse : String → Option J) (emptyObj : J)
    (execTool : String → J → Except String String) (turnId : Option String) :
    List ToolCall → List (AgentEvent J) × List Message
  | [] => ([], [])
  | tc :: rest =>
    let toolInput := parseToolInput parse emptyObj tc.arguments
    let startEv := AgentEvent.tool_start tc.id tc.name toolInput turnId
    let step : AgentEvent J × Message :=
      match execTool tc.name toolInput with
      | .ok result =>
        (AgentEvent.tool_result tc.id result false toolInput turnId,
         { role := "tool", content := result, tool_call_id := some tc.id })
      | .error m =>
        (AgentEvent.tool_result tc.id m true toolInput turnId,
         { role := "tool", content := m, tool_call_id := some tc.id })
    let r := execToolCalls parse emptyObj execTool turnId rest
    (startEv :: step.1 :: r.1, step.2 :: r.2)

/-- Observable outcome of one `sendMessage` / `chat` invocation: the events
yielded in order, the number of model-transport invocations performed, and
the message of a thrown error that escaped the generator (if any). -/
structure RunResult (J : Type) where
  events : List (AgentEvent J)
  modelCalls : Nat
  thrown : Option String
deriving DecidableEq, Repr

def maxToolRounds : Nat := 5

def overflowMessage : String :=
  "Too many tool call rounds; aborting to avoid infinite loop."

def noCodexMessage : String :=
  "No Codex login found. Run \x27codex login\x27 then retry."

def noKeyMessage : String :=
  "No OpenRouter API key configured. Please add your API key in Settings."

/-- The round loop of models.ts:362-461, by recursion on the number of
remaining rounds (`maxToolRounds - round`): stream one model call
(`streams round` is what the network returns for the round's request — the
request payload, messages and tool definitions, is absorbed by this
oracle), append the assistant message, emit `text_complete` when the
assistant text is non-empty, stop on a round without tool calls, otherwise
execute the calls sequentially and continue; when the rounds are exhausted
emit the single overflow `error` event. A transport throw escapes with the
events yielded so far. -/
def roundLoop {J : Type} (parse : String → Option J) (emptyObj : J)
    (execTool : String → J → Except String String) (model : String)
    (streams : Nat → FetchOutcome) :
    Nat → Nat → List Message → RunResult J × List Message
  | 0, _, history =>
    ({ events := [AgentEvent.error overflowMessage], modelCalls := 0, thrown := none }, history)
  | roundsLeft + 1, round, history =>
    match callOpenRouterStream (J := J) model (streams round) with
    | (evs, .error e) =>
      ({ events := evs, modelCalls := 1, thrown := some e }, history)
    | (evs, .ok agg) =>
      let hasToolCalls := !agg.toolCalls.isEmpty
      let history1 := history ++
        [{ role := "assistant", content := agg.content,
           tool_calls := if hasToolCalls then some agg.toolCalls else none }]
      let evs1 := evs ++
        (if agg.content = "" then []
         else [AgentEvent.text_complete agg.content (some hasToolCalls) agg.turnId])
      if hasToolCalls then
        let tr := execToolCalls parse emptyObj execTool agg.turnId agg.toolCalls
        let rest := roundLoop parse emptyObj execTool model streams roundsLeft (round + 1)
          (history1 ++ tr.2)
        ({ events := evs1 ++ tr.1 ++ rest.1.events,
           modelCalls := 1 + rest.1.modelCalls,
           thrown := rest.1.thrown }, rest.2)
      else
        ({ events := evs1, modelCalls := 1, thrown := none }, history1)

/-- `sendMessage` (models.ts:299-462). Parameters standing for external
collaborators: `hasCodexAuth` is `hasCodexAuthFile()`; `codex` is the
event list and final content of `callCodexCliStream` (its CLI protocol is
out of scope here); `apiKey` is the resolved credential (`getApiKey`
returns `null` exactly when no credential is available, models.ts:991-998);
`streams` is the per-round network outcome. The skill-injection messages
(models.ts:306-309) are consumed only by the round-0 request payload,
which the `streams` oracle absorbs; history bookkeeping is kept. Returns
the run outcome and the persisted conversation history. -/
def sendMessage {J : Type} (parse : String → Option J) (emptyObj : J)
    (execTool : String → J → Except String String) (model : String)
    (hasCodexAuth : Bool) (codex : List (AgentEvent J) × String)
    (apiKey : Option String) (streams : Nat → FetchOutcome)
    (history : List Message) (content : String) : RunResult J × List Message :=
  let userMessage : Message := { role := "user", content := content }
  let newHistory := history ++ [userMessage]
  if isOpenAIModel model then
    if !hasCodexAuth then
      ({ events := [AgentEvent.error noCodexMessage], modelCalls := 0, thrown := none },
       newHistory)
    else
      let assistantText := codex.2
      ({ events := codex.1 ++
           (if assistantText = "" then []
            else [AgentEvent.text_complete assistantText none none]),
         modelCalls := 1, thrown := none },
       newHistory ++ [{ role := "assistant", content := assistantText }])
  else
    match apiKey with
    | none =>
      ({ events := [AgentEvent.error noKeyMessage], modelCalls := 0, thrown := none },
       newHistory)
    | some _ => roundLoop parse emptyObj execTool model streams maxToolRounds 0 newHistory

/-- `chat` (models.ts:1017-1038): reject a blank message with an `error`
plus `complete`; otherwise delegate to `sendMessage` and append the
`complete` event from the `finally` block. A throw escaping `sendMessage`
is not caught — the `finally` still yields `complete`, then the exception
propagates to the caller. -/
def chat {J : Type} (parse : String → Option J) (emptyObj : J)
    (execTool : String → J → Except String String) (model : String)
    (hasCodexAuth : Bool) (codex : List (AgentEvent J) × String)
    (apiKey : Option String) (streams : Nat → FetchOutcome)
    (history : List Message) (userMessage : String) : RunResult J :=
  if strTrim userMessage = "" then
    { events := [AgentEvent.error "Cannot send empty message", AgentEvent.complete],
      modelCalls := 0, thrown := none }
  else
    let r := (sendMessage parse emptyObj execTool model hasCodexAuth codex apiKey streams
      history userMessage).1
    { r with events := r.events ++ [AgentEvent.complete] }

/-! ## Tool dispatch (`executeToolCall` / `executeApiToolCall`,
models.ts:820-879) -/

/-- One element of a tool result's `content` array: a block is a text
block when its `type` is `"text"` and its `text` field is a string
(`text = some _`). -/
structure BlockVal where
  type : String
  text : Option String
deriving DecidableEq, Repr

/-- Shape of the value returned by a tool invocation, as probed by the
dispatch code: a plain string; an object exposing a `content` property
(`content = some blocks` when that property is an array, `none` otherwise)
and an `isError` flag (`Boolean(result.isError)`, absent = false); or any
other value, which the code only ever stringifies. -/
inductive ToolCallResult where
  | str (s : String)
  | objContent (content : Option (List BlockVal)) (isError : Bool)
  | otherVal
deriving DecidableEq, Repr

/-- models.ts:838-841 / 869-871: keep the text blocks, join their texts
with newlines. -/
def blockText (content : List BlockVal) : String :=
  String.intercalate "\n"
    ((content.filter (fun c => c.type == "text" && c.text.isSome)).map (fun c => c.text.getD ""))

/-- The MCP (remote client) pathway of `executeToolCall` after
`client.callTool` returns (models.ts:835-846): prefer the joined text
content when it is non-blank, otherwise return the string result itself or
its capped JSON stringification (`stringify` models
`safeJsonStringify(·, 8000)`). The `isError` flag is never consulted on
this pathway. -/
def normalizeMcpToolResult (stringify : ToolCallResult → String) :
    ToolCallResult → String
  | .objContent (some blocks) isErr =>
    if !(strTrim (blockText blocks)).isEmpty then blockText blocks
    else stringify (.objContent (some blocks) isErr)
  | .str s => s
  | r => stringify r

/-- `executeApiToolCall` after the handler returns (models.ts:864-878): on
an object with a `content` array, an `isError` result throws with the
joined block text (or `"API tool failed"` when that text is empty);
otherwise non-blank text is returned, with stringification as fallback.
An `isError` result whose `content` is not an array is *not* thrown. -/
def normalizeApiToolResult (stringify : ToolCallResult → String) :
    ToolCallResult → Except String String
  | .objContent (some blocks) isErr =>
    let text := blockText blocks
    if isErr then .error (if text = "" then "API tool failed" else text)
    else if !(strTrim text).isEmpty then .ok text
    else .ok (stringify (.objContent (some blocks) isErr))
  | .objContent none isErr => .ok (stringify (.objContent none isErr))
  | .str s => .ok s
  | .otherVal => .ok (stringify .otherVal)

/-- `executeToolCall` (models.ts:820-847): resolve the synthesized name
against the API (in-process) map first, then the MCP map, else throw
`Unknown tool`. `apiHandlerResult` / `mcpCallResult` are the outcomes of
the external handler / `client.callTool` invocation (`Except.error` models
a throw, which propagates). -/
def executeToolCall (stringify : ToolCallResult → String)
    (apiToolMap : String → Option (String × String))
    (toolMap : String → Option (String × String))
    (apiHandlerResult : Except String ToolCallResult)
    (mcpCallResult : Except String ToolCallResult)
    (toolName : String) : Except String String :=
  match apiToolMap toolName with
  | some _ => apiHandlerResult.bind (normalizeApiToolResult stringify)
  | none =>
    match toolMap toolName with
    | none => .error ("Unknown tool: " ++ toolName)
    | some _ => mcpCallResult.map (normalizeMcpToolResult stringify)

/-! ## Concrete fixtures used by witness and counterexample theorems -/

/-- A complete tool-call fragment used by the C1 witness stream. -/
def toolFragment : ToolCallFragment :=
  { index := 0, id := some "c1", name := some "t", arguments := some "\x7b\x7d" }

/-- A streamed chunk whose delta carries one complete tool-call fragment. -/
def toolChunk : StreamChunk :=
  { id := some "turn1", error := none,
    choices := some [{ delta := some { content := none, tool_calls := some [toolFragment] } }] }

/-- A streamed chunk whose delta carries only a content fragment. -/
def contentChunk (t : String) : StreamChunk :=
  { id := some "turn1", error := none,
    choices := some [{ delta := some { content := some t, tool_calls := none } }] }

/-- A network oracle that answers every round with one tool-call chunk. -/
def toolStreams : Nat → FetchOutcome :=
  fun _ => FetchOutcome.stream [SseData.chunk toolChunk]

/-- A concrete stand-in for `JSON.parse` that recognizes only `"{}"`. -/
def parseFixture : String → Option Unit :=
  fun s => if s = "\x7b\x7d" then some () else none

/-- A concrete tool executor that always succeeds. -/
def execToolFixture : String → Unit → Except String String :=
  fun _ _ => Except.ok "r"

/-- A concrete stand-in for `safeJsonStringify(·, 8000)`. -/
def stringifyFixture : ToolCallResult → String :=
  fun _ => "[object]"

/-- Tool dispatch applied to a remote (MCP) result that is flagged
`isError: true` and carries the text block `boom`: the fixture for the C7
counterexample. The API map misses, the MCP map hits. -/
def c7Dispatch : Except String String :=
  executeToolCall stringifyFixture (fun _ => none) (fun _ => some ("src", "tool"))
    (Except.ok ToolCallResult.otherVal)
    (Except.ok (ToolCallResult.objContent (some [BlockVal.mk "text" (some "boom")]) true))
    "src__tool"

/-- Fragment stream for the C5 witness: index 0 never receives a name,
index 1 does. -/
def c5Fragments : List ToolCallFragment :=
  [{ index := 0, id := some "a", name := none, arguments := some "x" },
   { index := 1, id := some "b", name := some "named", arguments := none }]

/-! ## Helper lemmas -/

theorem mergeFragment_id (e : ToolCall) (tc : ToolCallFragment) :
    (mergeFragment e tc).id = if truthy tc.id then tc.id.getD "" else e.id := by
  unfold mergeFragment
  by_cases h1 : truthy tc.id <;> by_cases h2 : truthy tc.name <;>
    by_cases h3 : truthy tc.arguments <;> simp [h1, h2, h3]

theorem mergeFragment_name (e : ToolCall) (tc : ToolCallFragment) :
    (mergeFragment e tc).name = if truthy tc.name then tc.name.getD "" else e.name := by
  unfold mergeFragment
  by_cases h1 : truthy tc.id <;> by_cases h2 : truthy tc.name <;>
    by_cases h3 : truthy tc.arguments <;> simp [h1, h2, h3]

theorem mergeFragment_arguments (e : ToolCall) (tc : ToolCallFragment) :
    (mergeFragment e tc).arguments
      = e.arguments ++ (if truthy tc.arguments then tc.arguments.getD "" else "") := by
  unfold mergeFragment
  by_cases h1 : truthy tc.id <;> by_cases h2 : truthy tc.name <;>
    by_cases h3 : truthy tc.arguments <;> simp [h1, h2, h3]

theorem mem_mapSet {m : List (Nat × ToolCall)} {k : Nat} {v : ToolCall} {p : Nat × ToolCall}
    (hp : p ∈ mapSet m k v) : p = (k, v) ∨ p ∈ m := by
  induction m with
  | nil =>
    simp only [mapSet, List.mem_singleton] at hp
    exact Or.inl hp
  | cons hd tl ih =>
    obtain ⟨k', v'⟩ := hd
    unfold mapSet at hp
    split at hp
    · rcases List.mem_cons.mp hp with h1 | h1
      · exact Or.inl h1
      · exact Or.inr (List.mem_cons_of_mem _ h1)
    · rcases List.mem_cons.mp hp with h1 | h1
      · exact Or.inr (by simp [h1])
      · rcases ih h1 with h2 | h2
        · exact Or.inl h2
        · exact Or.inr (List.mem_cons_of_mem _ h2)

theorem mapGet_mem {m : List (Nat × ToolCall)} {k : Nat} {v : ToolCall}
    (h : mapGet m k = some v) : (k, v) ∈ m := by
  induction m with
  | nil => simp [mapGet] at h
  | cons hd tl ih =>
    obtain ⟨k', v'⟩ := hd
    unfold mapGet at h
    split at h
    · next hk =>
      obtain rfl : v' = v := by simpa using h
      subst hk
      exact List.mem_cons_self _ _
    · next hk =>
      exact List.mem_cons_of_mem _ (ih h)

/-- If no fragment at index `i` ever carries a truthy name, every
aggregator entry at index `i` keeps an empty name. -/
theorem aggregate_never_named (i : Nat) :
    ∀ (fs : List ToolCallFragment) (m0 : List (Nat × ToolCall)),
    (∀ f ∈ fs, f.index = i → truthy f.name = false) →
    (∀ p ∈ m0, p.1 = i → p.2.name = "") →
    ∀ p ∈ List.foldl applyFragment m0 fs, p.1 = i → p.2.name = "" := by
  intro fs
  induction fs with
  | nil => intro m0 _ hm0; simpa using hm0
  | cons f fs ih =>
    intro m0 hfs hm0
    simp only [List.foldl_cons]
    apply ih
    · intro g hg; exact hfs g (List.mem_cons_of_mem _ hg)
    · intro p hp hpi
      unfold applyFragment at hp
      rcases mem_mapSet hp with hpe | hpm
      · have hidx : f.index = i := by rw [hpe] at hpi; exact hpi
        have hname : truthy f.name = false := hfs f (List.mem_cons_self _ _) hidx
        have hexist : ((mapGet m0 f.index).getD
            { id := f.id.getD ("toolcall_" ++ toString f.index),
              name := "", arguments := "" }).name = "" := by
          cases hg : mapGet m0 f.index with
          | none => rfl
          | some e =>
            exact hm0 (f.index, e) (mapGet_mem hg) hidx
        have : p.2.name = "" := by
          rw [hpe]
          rw [mergeFragment_name]
          simp [hname, hexist]
        exact this
      · exact hm0 p hpm hpi

theorem textDeltaConcat_append {J : Type} (a b : List (AgentEvent J)) :
    textDeltaConcat (a ++ b) = textDeltaConcat a ++ textDeltaConcat b := by
  induction a with
  | nil => simp [textDeltaConcat]
  | cons e rest ih =>
    cases e <;> simp [textDeltaConcat, ih, String.append_assoc]

/-- One flushed payload extends the running content by exactly the text of
the `text_delta` events it emits. -/
theorem processData_content {J : Type} (model : String) (s : StreamState) (d : SseData)
    {evs : List (AgentEvent J)} {s1 : StreamState}
    (h : processData (J := J) model s d = (evs, .ok s1)) :
    s1.content = s.content ++ textDeltaConcat evs := by
  cases d with
  | done =>
    injection h with h1 h2
    subst h1
    injection h2 with h2
    subst h2
    simp [textDeltaConcat]
  | malformed =>
    injection h with h1 h2
    subst h1
    injection h2 with h2
    subst h2
    simp [textDeltaConcat]
  | chunk c =>
    simp only [processData] at h
    cases hcerr : c.error with
    | some m => rw [hcerr] at h; exact absurd h (by simp)
    | none =>
      rw [hcerr] at h
      cases hd : (c.choices.getD []).head? >>= (fun ch => ch.delta) with
      | none =>
        rw [hd] at h
        injection h with h1 h2
        subst h1
        injection h2 with h2
        subst h2
        by_cases ht : !truthy s.turnId && truthy c.id <;> simp [ht, textDeltaConcat]
      | some dl =>
        rw [hd] at h
        injection h with h1 h2
        injection h2 with h2
        subst h1
        subst h2
        by_cases hc : truthy dl.content <;>
          by_cases ht : !truthy s.turnId && truthy c.id <;>
            cases htc : dl.tool_calls <;>
              simp [hc, ht, htc, textDeltaConcat]

/-- The read loop accumulates into `content` exactly the concatenation of
the `text_delta` texts it emits. -/
theorem runChunks_content {J : Type} (model : String) :
    ∀ (ds : List SseData) (s s' : StreamState) (evs : List (AgentEvent J)),
    runChunks (J := J) model s ds = (evs, .ok s') →
    s'.content = s.content ++ textDeltaConcat evs := by
  intro ds
  induction ds with
  | nil =>
    intro s s' evs h
    injection h with h1 h2
    subst h1
    injection h2 with h2
    subst h2
    simp [textDeltaConcat]
  | cons d ds ih =>
    intro s s' evs h
    simp only [runChunks] at h
    cases hp : processData (J := J) model s d with
    | mk pevs pr =>
      rw [hp] at h
      cases pr with
      | error e => exact absurd h (by simp)
      | ok s1 =>
        have h' : (pevs ++ (runChunks (J := J) model s1 ds).1,
            (runChunks (J := J) model s1 ds).2) = (evs, Except.ok s') := h
        cases hr : runChunks (J := J) model s1 ds with
        | mk revs rr =>
          rw [hr] at h'
          have h'' : pevs ++ revs = evs ∧ rr = Except.ok s' := by simpa using h'
          obtain ⟨h1, h2⟩ := h''
          subst h1
          subst h2
          have hrec := ih s1 s' revs hr
          rw [hrec, processData_content model s d hp,
            textDeltaConcat_append, String.append_assoc]

/-- The flushed-payload processor never emits `error` events (a chunk-level
error is thrown, not emitted). -/
theorem processData_no_error {J : Type} (model : String) (s : StreamState) (d : SseData)
    {pevs : List (AgentEvent J)} {pr : Except String StreamState}
    (hp : processData (J := J) model s d = (pevs, pr)) :
    ∀ e ∈ pevs, isErrorEvent e = false := by
  cases d with
  | done =>
    injection hp with h1 _
    subst h1
    intro e he
    simp at he
  | malformed =>
    injection hp with h1 _
    subst h1
    intro e he
    simp at he
  | chunk c =>
    obtain ⟨cid, cerr, cch⟩ := c
    simp only [processData] at hp
    cases cerr with
    | some m =>
      injection hp with h1 _
      subst h1
      intro e he
      simp at he
    | none =>
      cases hd : (cch.getD []).head? >>= (fun ch => ch.delta) with
      | none =>
        rw [hd] at hp
        injection hp with h1 _
        subst h1
        intro e he
        simp at he
      | some dl =>
        rw [hd] at hp
        injection hp with h1 _
        subst h1
        by_cases hc : truthy dl.content <;> simp [hc, isErrorEvent]

/-- The stream read loop never emits `error` events. -/
theorem runChunks_no_error {J : Type} (model : String) :
    ∀ (ds : List SseData) (s : StreamState),
    ∀ e ∈ (runChunks (J := J) model s ds).1, isErrorEvent e = false := by
  intro ds
  induction ds with
  | nil => intro s e he; simp [runChunks] at he
  | cons d ds ih =>
    intro s e he
    simp only [runChunks] at he
    cases hp : processData (J := J) model s d with
    | mk pevs pr =>
      rw [hp] at he
      cases pr with
      | error er =>
        have he' : e ∈ pevs := he
        exact processData_no_error model s d hp e he'
      | ok s1 =>
        have he' : e ∈ pevs ++ (runChunks (J := J) model s1 ds).1 := he
        rcases List.mem_append.mp he' with h | h
        · exact processData_no_error model s d hp e h
        · exact ih s1 e h

/-- The transport never emits `error` events: it throws instead. -/
theorem callOpenRouterStream_no_error {J : Type} (model : String) (fo : FetchOutcome) :
    ∀ e ∈ (callOpenRouterStream (J := J) model fo).1, isErrorEvent e = false := by
  cases fo with
  | fail er => intro e he; simp [callOpenRouterStream] at he
  | nonStream agg => intro e he; simp [callOpenRouterStream] at he
  | stream ds =>
    intro e he
    simp only [callOpenRouterStream] at he
    cases hr : runChunks (J := J) model initStreamState ds with
    | mk revs rr =>
      rw [hr] at he
      cases rr with
      | ok st =>
        have he' : e ∈ revs := he
        exact runChunks_no_error model ds initStreamState e (by rw [hr]; exact he')
      | error er =>
        have he' : e ∈ revs := he
        exact runChunks_no_error model ds initStreamState e (by rw [hr]; exact he')

/-- The sequential tool-execution loop emits only `tool_start` and
`tool_result` events, never `error` events. -/
theorem execToolCalls_no_error {J : Type} (parse : String → Option J) (emptyObj : J)
    (execTool : String → J → Except String String) (turnId : Option String) :
    ∀ (tcs : List ToolCall),
    ∀ e ∈ (execToolCalls (J := J) parse emptyObj execTool turnId tcs).1,
    isErrorEvent e = false := by
  intro tcs
  induction tcs with
  | nil => intro e he; simp [execToolCalls] at he
  | cons tc rest ih =>
    intro e he
    simp only [execToolCalls] at he
    rcases List.mem_cons.mp he with h | h
    · subst h; rfl
    · rcases List.mem_cons.mp h with h2 | h2
      · cases hex : execTool tc.name (parseToolInput parse emptyObj tc.arguments) with
        | ok r => rw [hex] at h2; subst h2; rfl
        | error m => rw [hex] at h2; subst h2; rfl
      · exact ih e h2

/-- A round whose transport invocation throws (abort, HTTP error, …)
terminates the loop at once: the events yielded so far ([] here, since the
throw precedes any yield) and the escaped error. -/
theorem roundLoop_fail {J : Type} (parse : String → Option J) (emptyObj : J)
    (execTool : String → J → Except String String) (model : String)
    (streams : Nat → FetchOutcome) (n r0 : Nat) (history : List Message) (e : String)
    (hAbort : streams r0 = FetchOutcome.fail e) :
    roundLoop parse emptyObj execTool model streams (n + 1) r0 history
      = ({ events := [], modelCalls := 1, thrown := some e }, history) := by
  simp only [roundLoop]
  rw [hAbort]
  rfl

/-- When every remaining round's model call succeeds with a non-empty tool
call list, the round loop performs exactly one model call per remaining
round, nothing escapes, and the event stream ends with the single overflow
`error` event, preceded only by non-`error` events. -/
theorem roundLoop_overflow {J : Type} (parse : String → Option J) (emptyObj : J)
    (execTool : String → J → Except String String) (model : String)
    (streams : Nat → FetchOutcome) :
    ∀ (n r0 : Nat) (history : List Message),
    (∀ k, k < n → ∃ evs agg,
        callOpenRouterStream (J := J) model (streams (r0 + k)) = (evs, .ok agg)
        ∧ agg.toolCalls ≠ []) →
    ∃ E, (roundLoop parse emptyObj execTool model streams n r0 history).1.events
          = E ++ [AgentEvent.error overflowMessage]
      ∧ (∀ e ∈ E, isErrorEvent e = false)
      ∧ (roundLoop parse emptyObj execTool model streams n r0 history).1.modelCalls = n
      ∧ (roundLoop parse emptyObj execTool model streams n r0 history).1.thrown = none := by
  intro n
  induction n with
  | zero =>
    intro r0 history _
    exact ⟨[], rfl, by simp, rfl, rfl⟩
  | succ m ih =>
    intro r0 history hs
    obtain ⟨evs, agg, hcall, htc⟩ := hs 0 (Nat.succ_pos m)
    rw [Nat.add_zero] at hcall
    have htc' : (!agg.toolCalls.isEmpty) = true := by
      cases h : agg.toolCalls with
      | nil => exact absurd h htc
      | cons a l => rfl
    have hstep : roundLoop parse emptyObj execTool model streams (m + 1) r0 history
        = (let history1 := history ++ [Message.mk "assistant" agg.content none
             (if !agg.toolCalls.isEmpty then some agg.toolCalls else none)]
           let evs1 := evs ++ (if agg.content = "" then [] else
             [AgentEvent.text_complete agg.content (some (!agg.toolCalls.isEmpty)) agg.turnId])
           if !agg.toolCalls.isEmpty then
             let tr := execToolCalls parse emptyObj execTool agg.turnId agg.toolCalls
             let rest := roundLoop parse emptyObj execTool model streams m (r0 + 1)
               (history1 ++ tr.2)
             ({ events := evs1 ++ tr.1 ++ rest.1.events,
                modelCalls := 1 + rest.1.modelCalls,
                thrown := rest.1.thrown }, rest.2)
           else ({ events := evs1, modelCalls := 1, thrown := none }, history1)) := by
      simp only [roundLoop]
      rw [hcall]
    rw [hstep]
    simp only [htc', eq_self_iff_true, if_true]
    obtain ⟨E', hE', hNE', hMC', hTH'⟩ := ih (r0 + 1)
      ((history ++ [Message.mk "assistant" agg.content none (some agg.toolCalls)])
        ++ (execToolCalls parse emptyObj execTool agg.turnId agg.toolCalls).2)
      (fun k hk => by
        have h := hs (k + 1) (Nat.succ_lt_succ hk)
        rwa [show r0 + (k + 1) = r0 + 1 + k by omega] at h)
    refine ⟨(evs ++ (if agg.content = "" then [] else
        [AgentEvent.text_complete agg.content (some true) agg.turnId]))
        ++ (execToolCalls parse emptyObj execTool agg.turnId agg.toolCalls).1 ++ E',
      ?g1, ?g2, ?g3, ?g4⟩
    case g1 =>
      rw [hE', ← List.append_assoc]
    case g2 =>
      intro e he
      rcases List.mem_append.mp he with h | h
      · rcases List.mem_append.mp h with h1 | h1
        · rcases List.mem_append.mp h1 with h0 | h0
          · exact callOpenRouterStream_no_error model (streams r0) e (by rw [hcall]; exact h0)
          · by_cases hcnt : agg.content = ""
            · simp [hcnt] at h0
            · simp [hcnt] at h0
              subst h0
              rfl
        · exact execToolCalls_no_error parse emptyObj execTool agg.turnId agg.toolCalls e h1
      · exact hNE' e h
    case g3 =>
      rw [hMC']
      omega
    case g4 => exact hTH'

theorem map_snd_filter (p : ToolCall → Bool) :
    ∀ (l : List (Nat × ToolCall)),
    (l.map Prod.snd).filter p = (l.filter (fun x => p x.2)).map Prod.snd := by
  intro l
  induction l with
  | nil => rfl
  | cons hd tl ih => by_cases h : p hd.2 <;> simp [h, ih]

/-! ## Claim theorems -/

/-- C1: on an OpenRouter-routed model (`isOpenAIModel` false, credential
present), against a model whose every round answers with at least one
finalized tool call, `sendMessage` performs exactly `maxToolRounds = 5`
model calls (so never a 6th), then emits exactly one `error` event — the
overflow message — as the last event, and no exception escapes. -/
theorem claim_c1_round_cap {J : Type} (parse : String → Option J) (emptyObj : J)
    (execTool : String → J → Except String String) (model : String)
    (hasCodexAuth : Bool) (codex : List (AgentEvent J) × String) (apiKey : String)
    (streams : Nat → FetchOutcome) (history : List Message) (content : String)
    (hModel : isOpenAIModel model = false)
    (hRounds : ∀ k, k < maxToolRounds → ∃ evs agg,
        callOpenRouterStream (J := J) model (streams k) = (evs, .ok agg)
        ∧ agg.toolCalls ≠ []) :
    (sendMessage parse emptyObj execTool model hasCodexAuth codex (some apiKey) streams
        history content).1.modelCalls = 5
    ∧ (sendMessage parse emptyObj execTool model hasCodexAuth codex (some apiKey) streams
        history content).1.events.filter isErrorEvent = [AgentEvent.error overflowMessage]
    ∧ (sendMessage parse emptyObj execTool model hasCodexAuth codex (some apiKey) streams
        history content).1.events.getLast? = some (AgentEvent.error overflowMessage)
    ∧ (sendMessage parse emptyObj execTool model hasCodexAuth codex (some apiKey) streams
        history content).1.thrown = none := by
  have hsend : sendMessage parse emptyObj execTool model hasCodexAuth codex (some apiKey)
        streams history content
      = roundLoop parse emptyObj execTool model streams maxToolRounds 0
          (history ++ [Message.mk "user" content none none]) := by
    unfold sendMessage
    rw [hModel]
    rfl
  obtain ⟨E, hE, hNE, hMC, hTH⟩ := roundLoop_overflow parse emptyObj execTool model streams
    maxToolRounds 0 (history ++ [Message.mk "user" content none none])
    (fun k hk => by simpa using hRounds k hk)
  rw [hsend]
  refine ⟨hMC, ?_, ?_, hTH⟩
  · rw [hE, List.filter_append]
    have hEnil : E.filter isErrorEvent = [] :=
      List.filter_eq_nil_iff.mpr (fun a ha => by simp [hNE a ha])
    rw [hEnil]
    rfl
  · rw [hE]
    exact List.getLast?_concat _

/-- Witness for C1: a concrete oracle that returns one complete tool call
every round drives the loop through exactly 5 model calls and the single
overflow error event. -/
theorem claim_c1_witness :
    (sendMessage (J := Unit) parseFixture () execToolFixture "openai/gpt-4o" false ([], "")
        (some "k") toolStreams [] "hi").1.modelCalls = 5
    ∧ (sendMessage (J := Unit) parseFixture () execToolFixture "openai/gpt-4o" false ([], "")
        (some "k") toolStreams [] "hi").1.events.filter isErrorEvent
        = [AgentEvent.error overflowMessage]
    ∧ (sendMessage (J := Unit) parseFixture () execToolFixture "openai/gpt-4o" false ([], "")
        (some "k") toolStreams [] "hi").1.events.getLast?
        = some (AgentEvent.error overflowMessage)
    ∧ (sendMessage (J := Unit) parseFixture () execToolFixture "openai/gpt-4o" false ([], "")
        (some "k") toolStreams [] "hi").1.thrown = none :=
  claim_c1_round_cap parseFixture () execToolFixture "openai/gpt-4o" false ([], "") "k"
    toolStreams [] "hi" (by decide)
    (fun k _ => ⟨[], Aggregate.mk "" [ToolCall.mk "c1" "t" "\x7b\x7d"] (some "turn1"),
      rfl, by decide⟩)

/-- C2: for every finite sequence of flushed SSE payloads processed by the
event-stream transport, the concatenation in emission order of the `text`
fields of all emitted `text_delta` events equals the `content` field of
the final aggregate returned when the stream ends. -/
theorem claim_c2_delta_concatenation {J : Type} (model : String) (ds : List SseData)
    (evs : List (AgentEvent J)) (st : StreamState)
    (h : runChunks (J := J) model initStreamState ds = (evs, .ok st)) :
    textDeltaConcat evs = (streamAggregate st).content := by
  have hc := runChunks_content model ds initStreamState st evs h
  simpa [streamAggregate, initStreamState] using hc.symm

/-- Witness for C2 at a concrete two-chunk stream. -/
theorem claim_c2_witness :
    runChunks (J := Unit) "m" initStreamState
        [SseData.chunk (contentChunk "Hel"), SseData.chunk (contentChunk "lo"), SseData.done]
      = ([AgentEvent.text_delta "Hel" (some "turn1"), AgentEvent.text_delta "lo" (some "turn1")],
         Except.ok { content := "Hello", turnId := some "turn1", toolCallsByIndex := [] })
    ∧ textDeltaConcat (J := Unit)
        [AgentEvent.text_delta "Hel" (some "turn1"), AgentEvent.text_delta "lo" (some "turn1")]
      = (streamAggregate
          { content := "Hello", turnId := some "turn1", toolCallsByIndex := [] }).content :=
  ⟨rfl, claim_c2_delta_concatenation "m"
    [SseData.chunk (contentChunk "Hel"), SseData.chunk (contentChunk "lo"), SseData.done]
    [AgentEvent.text_delta "Hel" (some "turn1"), AgentEvent.text_delta "lo" (some "turn1")]
    { content := "Hello", turnId := some "turn1", toolCallsByIndex := [] } rfl⟩

/-- C4: feeding the aggregator the three fragments
`{index:0, id:"call1", function:{name:"search"}}`,
`{index:0, function:{arguments:'{"q":'}}`,
`{index:0, function:{arguments:'"x"}'}}` yields exactly the single call
`{id:"call1", name:"search", arguments:'{"q":"x"}'}`; and in general a
fragment sets/overrides `id` and `name` when they are supplied (truthy)
while supplied `arguments` are appended, never replaced. -/
theorem claim_c4_aggregation_example_and_append :
    aggregateFragments
        [{ index := 0, id := some "call1", name := some "search", arguments := none },
         { index := 0, id := none, name := none, arguments := some "\x7b\"q\":" },
         { index := 0, id := none, name := none, arguments := some "\"x\"\x7d" }]
      = [(0, { id := "call1", name := "search", arguments := "\x7b\"q\":\"x\"\x7d" })]
    ∧ ∀ (e : ToolCall) (tc : ToolCallFragment),
        (mergeFragment e tc).id = (if truthy tc.id then tc.id.getD "" else e.id)
        ∧ (mergeFragment e tc).name = (if truthy tc.name then tc.name.getD "" else e.name)
        ∧ (mergeFragment e tc).arguments
            = e.arguments ++ (if truthy tc.arguments then tc.arguments.getD "" else "") :=
  ⟨by decide,
   fun e tc => ⟨mergeFragment_id e tc, mergeFragment_name e tc, mergeFragment_arguments e tc⟩⟩

/-- C5: the finalized tool-call list is the projection of the aggregator
entries sorted in ascending index order with empty-named entries dropped;
in particular an index whose name was never supplied contributes no
finalized call. -/
theorem claim_c5_finalize_sorted_drops_unnamed (fs : List ToolCallFragment) (i : Nat) :
    List.Sorted idxLe (List.insertionSort idxLe (aggregateFragments fs))
    ∧ finalizeToolCalls (aggregateFragments fs)
        = (finalizeEntries (aggregateFragments fs)).map Prod.snd
    ∧ ((∀ f ∈ fs, f.index = i → truthy f.name = false) →
        ∀ p ∈ finalizeEntries (aggregateFragments fs), p.1 ≠ i) := by
  refine ⟨List.sorted_insertionSort idxLe _, map_snd_filter _ _, ?_⟩
  intro hfs p hp hpi
  have hmem := List.mem_filter.mp hp
  have hm : p ∈ aggregateFragments fs :=
    (List.perm_insertionSort idxLe (aggregateFragments fs)).subset hmem.1
  have hempty := aggregate_never_named i fs [] hfs (by simp) p hm hpi
  rw [hempty] at hmem
  exact absurd hmem.2 (by decide)

/-- Witness for C5 at a concrete fragment stream: index 0 never gets a
name and indeed no finalized entry carries index 0. -/
theorem claim_c5_witness :
    (∀ f ∈ c5Fragments, f.index = 0 → truthy f.name = false)
    ∧ (∀ p ∈ finalizeEntries (aggregateFragments c5Fragments), p.1 ≠ 0) :=
  ⟨by decide, (claim_c5_finalize_sorted_drops_unnamed c5Fragments 0).2.2 (by decide)⟩

/-- C6: name synthesis is a pure function of `(sourceSlug, toolName)`
(determinism is definitional in this embedding), its output is at most 64
characters, drawn from `[A-Za-z0-9_-]`, and equals the sanitize-then-
truncate of `sourceSlug ++ "__" ++ toolName`; the `(gcal, list_events)`
example synthesizes to `gcal__list_events`. -/
theorem claim_c6_toOpenAiToolName_sound (sourceSlug toolName : String) :
    (toOpenAiToolName sourceSlug toolName).length ≤ 64
    ∧ (∀ c ∈ (toOpenAiToolName sourceSlug toolName).data, isAllowedChar c = true)
    ∧ toOpenAiToolName sourceSlug toolName
        = String.mk ((((sourceSlug ++ "__" ++ toolName).data).map
            (fun c => if isAllowedChar c then c else '_')).take 64)
    ∧ toOpenAiToolName "gcal" "list_events" = "gcal__list_events" := by
  refine ⟨?_, ?_, rfl, by decide⟩
  · show (((sourceSlug ++ "__" ++ toolName).data.map
        (fun c => if isAllowedChar c then c else '_')).take 64).length ≤ 64
    rw [List.length_take]
    exact Nat.min_le_left _ _
  · intro c hc
    have hc' : c ∈ ((sourceSlug ++ "__" ++ toolName).data.map
        (fun c => if isAllowedChar c then c else '_')).take 64 := hc
    have hc2 := List.mem_of_mem_take hc'
    obtain ⟨a, _, ha⟩ := List.mem_map.mp hc2
    by_cases h : isAllowedChar a
    · rw [← ha]; simp [h]
    · rw [← ha]; simp [h]; decide

/-- Counterexample for C3: `gpt-4o` is an identifier with a bare
model-family prefix and no provider namespace (no `/`), yet `sendMessage`
routes it to the Codex CLI **subprocess**, not to a direct-API transport
as the claim states. -/
theorem claim_c3_counterexample :
    strStartsWith "gpt-4o" "gpt-" = true
    ∧ "gpt-4o".data.contains '/' = false
    ∧ selectBackend "gpt-4o" = Backend.subprocess
    ∧ selectBackend "gpt-4o" ≠ Backend.directAPI := by
  refine ⟨by decide, by decide, by decide, by decide⟩

/-- C3 (amended): backend selection is a pure **two**-way classification:
identifiers starting with `gpt-` (and not with `openai/`) select the
subprocess transport (Codex CLI); every other identifier — including all
namespaced `provider/model` identifiers — selects the router transport.
No identifier selects a direct-API transport from `sendMessage`: on the
router branch the endpoint is always the OpenRouter URL. -/
theorem claim_c3_backend_amended (m : String) :
    selectBackend m = (if isOpenAIModel m then Backend.subprocess else Backend.router)
    ∧ selectBackend m ≠ Backend.directAPI
    ∧ (strStartsWith m "openai/" = true → selectBackend m = Backend.router)
    ∧ (isOpenAIModel m = false →
        getApiEndpoint m = "https://openrouter.ai/api/v1/chat/completions") := by
  refine ⟨rfl, ?_, ?_, ?_⟩
  · unfold selectBackend
    by_cases h : isOpenAIModel m <;> simp [h]
  · intro h
    unfold selectBackend isOpenAIModel
    rw [h]
    simp
  · intro h
    unfold getApiEndpoint
    rw [h]
    rfl

/-- Witness for the hypotheses of the amended C3: a namespaced OpenAI id
routes to OpenRouter, and a router-side model gets the OpenRouter
endpoint. -/
theorem claim_c3_amended_witness :
    (strStartsWith "openai/gpt-4o" "openai/" = true
      ∧ selectBackend "openai/gpt-4o" = Backend.router)
    ∧ (isOpenAIModel "anthropic/claude-3.5-sonnet" = false
      ∧ getApiEndpoint "anthropic/claude-3.5-sonnet"
          = "https://openrouter.ai/api/v1/chat/completions") :=
  ⟨⟨by decide, (claim_c3_backend_amended "openai/gpt-4o").2.2.1 (by decide)⟩,
   ⟨by decide, (claim_c3_backend_amended "anthropic/claude-3.5-sonnet").2.2.2 (by decide)⟩⟩

/-- Counterexample for C7: on the remote (MCP client) pathway a result
with `isError: true` and text content `boom` is returned as **ordinary
data** (`Except.ok "boom"`), not converted into a thrown error — the MCP
branch of `executeToolCall` never consults `isError`. -/
theorem claim_c7_counterexample :
    c7Dispatch = Except.ok "boom" ∧ ∀ msg : String, c7Dispatch ≠ Except.error msg :=
  ⟨rfl, fun _ h =>
    Except.noConfusion ((show c7Dispatch = Except.ok "boom" from rfl).symm.trans h)⟩

/-- C7 (amended): only the in-process (API handler) pathway converts an
`isError` result into a thrown error carrying the joined block text (or
`API tool failed` when that text is empty); the remote (MCP) pathway
ignores the `isError` flag and returns the joined block text as ordinary
data whenever it is non-blank. -/
theorem claim_c7_isError_amended (stringify : ToolCallResult → String)
    (blocks : List BlockVal) (isErr : Bool) :
    normalizeApiToolResult stringify (.objContent (some blocks) true)
      = .error (if blockText blocks = "" then "API tool failed" else blockText blocks)
    ∧ ((strTrim (blockText blocks)).isEmpty = false →
        normalizeMcpToolResult stringify (.objContent (some blocks) isErr)
          = blockText blocks) := by
  constructor
  · rfl
  · intro h
    unfold normalizeMcpToolResult
    simp [h]

/-- Witness for the amended C7 at a concrete non-blank text block. -/
theorem claim_c7_amended_witness :
    (strTrim (blockText [BlockVal.mk "text" (some "boom")])).isEmpty = false
    ∧ normalizeMcpToolResult stringifyFixture
        (ToolCallResult.objContent (some [BlockVal.mk "text" (some "boom")]) true)
      = blockText [BlockVal.mk "text" (some "boom")] :=
  ⟨by decide,
   (claim_c7_isError_amended stringifyFixture [BlockVal.mk "text" (some "boom")] true).2
     (by decide)⟩

/-- C8: with the router backend selected and no resolvable credential,
`sendMessage` performs zero transport invocations (no network call) and
emits exactly one `error` event (the auth message) before terminating,
with nothing thrown. -/
theorem claim_c8_auth_short_circuit {J : Type} (parse : String → Option J) (emptyObj : J)
    (execTool : String → J → Except String String) (model : String)
    (hasCodexAuth : Bool) (codex : List (AgentEvent J) × String)
    (streams : Nat → FetchOutcome) (history : List Message) (content : String)
    (hModel : selectBackend model = Backend.router) :
    (sendMessage parse emptyObj execTool model hasCodexAuth codex none streams
        history content).1
      = { events := [AgentEvent.error noKeyMessage], modelCalls := 0, thrown := none }
    ∧ ((sendMessage parse emptyObj execTool model hasCodexAuth codex none streams
        history content).1.events.filter isErrorEvent).length = 1 := by
  have hM : isOpenAIModel model = false := by
    by_cases h : isOpenAIModel model = true
    · simp [selectBackend, h] at hModel
    · simpa using h
  have hs : sendMessage parse emptyObj execTool model hasCodexAuth codex none streams
        history content
      = ({ events := [AgentEvent.error noKeyMessage], modelCalls := 0, thrown := none },
         history ++ [Message.mk "user" content none none]) := by
    unfold sendMessage
    rw [hM]
    rfl
  exact ⟨by rw [hs], by rw [hs]; rfl⟩

/-- Witness for C8 at a concrete router model with no credential. -/
theorem claim_c8_witness :
    selectBackend "openai/gpt-4o" = Backend.router
    ∧ (sendMessage (J := Unit) parseFixture () execToolFixture "openai/gpt-4o" false ([], "")
        none toolStreams [] "hi").1
      = { events := [AgentEvent.error noKeyMessage], modelCalls := 0, thrown := none } :=
  ⟨by decide,
   (claim_c8_auth_short_circuit parseFixture () execToolFixture "openai/gpt-4o" false ([], "")
     toolStreams [] "hi" (by decide)).1⟩

/-- Counterexample for C9: when the abort fires before the first byte
(the `fetch` rejects), the invocation indeed emits zero `text_delta`
events — but it does **not** return cleanly: the abort error propagates
out of `chat` (after the `finally` block's `complete` event), so
`thrown ≠ none`, contradicting the claim's "no thrown exception escaping". -/
theorem claim_c9_counterexample :
    (chat (J := Unit) parseFixture () execToolFixture "openai/gpt-4o" false ([], "")
        (some "k") (fun _ => FetchOutcome.fail "The operation was aborted") [] "hello").events.filter
          isTextDelta = []
    ∧ (chat (J := Unit) parseFixture () execToolFixture "openai/gpt-4o" false ([], "")
        (some "k") (fun _ => FetchOutcome.fail "The operation was aborted") [] "hello").thrown
      = some "The operation was aborted"
    ∧ (chat (J := Unit) parseFixture () execToolFixture "openai/gpt-4o" false ([], "")
        (some "k") (fun _ => FetchOutcome.fail "The operation was aborted") [] "hello").thrown
      ≠ none := by
  refine ⟨rfl, rfl, by decide⟩

/-- C9 (amended): an abort before the first byte yields zero `text_delta`
events and `chat`'s `finally` still yields the `complete` event, but the
abort error escapes the generator to the caller instead of a clean
return. -/
theorem claim_c9_abort_amended {J : Type} (parse : String → Option J) (emptyObj : J)
    (execTool : String → J → Except String String) (model : String)
    (hasCodexAuth : Bool) (codex : List (AgentEvent J) × String) (apiKey : String)
    (streams : Nat → FetchOutcome) (history : List Message) (userMessage : String)
    (e : String)
    (hModel : isOpenAIModel model = false)
    (hMsg : strTrim userMessage ≠ "")
    (hAbort : streams 0 = FetchOutcome.fail e) :
    (chat (J := J) parse emptyObj execTool model hasCodexAuth codex (some apiKey) streams
        history userMessage).events = [AgentEvent.complete]
    ∧ (chat (J := J) parse emptyObj execTool model hasCodexAuth codex (some apiKey) streams
        history userMessage).events.filter isTextDelta = []
    ∧ (chat (J := J) parse emptyObj execTool model hasCodexAuth codex (some apiKey) streams
        history userMessage).thrown = some e := by
  have hround : roundLoop (J := J) parse emptyObj execTool model streams maxToolRounds 0
        (history ++ [Message.mk "user" userMessage none none])
      = ({ events := [], modelCalls := 1, thrown := some e },
         history ++ [Message.mk "user" userMessage none none]) := by
    rw [show maxToolRounds = 4 + 1 from rfl]
    exact roundLoop_fail parse emptyObj execTool model streams 4 0 _ e hAbort
  have hs : sendMessage parse emptyObj execTool model hasCodexAuth codex (some apiKey)
        streams history userMessage
      = ({ events := [], modelCalls := 1, thrown := some e },
         history ++ [Message.mk "user" userMessage none none]) := by
    unfold sendMessage
    rw [hModel]
    simpa using hround
  have hc : chat (J := J) parse emptyObj execTool model hasCodexAuth codex (some apiKey)
        streams history userMessage
      = { events := [AgentEvent.complete], modelCalls := 1, thrown := some e } := by
    unfold chat
    rw [if_neg hMsg, hs]
    rfl
  exact ⟨by rw [hc], by rw [hc]; rfl, by rw [hc]⟩

/-- Witness for the amended C9 hypotheses at a concrete aborted fetch. -/
theorem claim_c9_amended_witness :
    strTrim "hello" ≠ ""
    ∧ (chat (J := Unit) parseFixture () execToolFixture "openai/gpt-4o" false ([], "")
        (some "k") (fun _ => FetchOutcome.fail "aborted") [] "hello").events
      = [AgentEvent.complete]
    ∧ (chat (J := Unit) parseFixture () execToolFixture "openai/gpt-4o" false ([], "")
        (some "k") (fun _ => FetchOutcome.fail "aborted") [] "hello").thrown = some "aborted" := by
  have h := claim_c9_abort_amended parseFixture () execToolFixture "openai/gpt-4o" false
    ([], "") "k" (fun _ => FetchOutcome.fail "aborted") [] "hello" "aborted"
    (by decide) (by decide) rfl
  exact ⟨by decide, h.1, h.2.2⟩

/-- C10: a tool call whose `arguments` string fails to parse as JSON (or
is empty) does not fail the orchestrator: the call is executed with the
empty object `{}` as input, and the emitted `tool_start` / `tool_result`
events carry input `{}`; the loop then proceeds to the remaining calls. -/
theorem claim_c10_invalid_args_empty_object {J : Type} (parse : String → Option J)
    (emptyObj : J) (execTool : String → J → Except String String) (turnId : Option String)
    (tc : ToolCall) (rest : List ToolCall)
    (h : (tc.arguments ≠ "" ∧ parse tc.arguments = none)
       ∨ (tc.arguments = "" ∧ parse "\x7b\x7d" = some emptyObj)) :
    parseToolInput parse emptyObj tc.arguments = emptyObj
    ∧ (execToolCalls parse emptyObj execTool turnId (tc :: rest)).1
      = AgentEvent.tool_start tc.id tc.name emptyObj turnId
        :: (match execTool tc.name emptyObj with
            | .ok result => AgentEvent.tool_result tc.id result false emptyObj turnId
            | .error m => AgentEvent.tool_result tc.id m true emptyObj turnId)
        :: (execToolCalls parse emptyObj execTool turnId rest).1 := by
  have hp : parseToolInput parse emptyObj tc.arguments = emptyObj := by
    unfold parseToolInput
    rcases h with ⟨hne, hnone⟩ | ⟨hemp, hsome⟩
    · rw [if_neg hne, hnone]
    · rw [if_pos hemp, hsome]
  refine ⟨hp, ?_⟩
  simp only [execToolCalls]
  rw [hp]
  cases hex : execTool tc.name emptyObj with
  | ok r => rfl
  | error m => rfl

/-- Witness for C10 at a concrete invalid-JSON arguments string. -/
theorem claim_c10_witness :
    (("bad" : String) ≠ "" ∧ parseFixture "bad" = none)
    ∧ parseToolInput parseFixture () "bad" = ()
    ∧ (execToolCalls parseFixture () execToolFixture none [ToolCall.mk "id1" "t" "bad"]).1
      = [AgentEvent.tool_start "id1" "t" () none,
         AgentEvent.tool_result "id1" "r" false () none] := by
  have h := claim_c10_invalid_args_empty_object parseFixture () execToolFixture none
    (ToolCall.mk "id1" "t" "bad") [] (Or.inl ⟨by decide, rfl⟩)
  refine ⟨⟨by decide, rfl⟩, h.1, ?_⟩
  rw [h.2]
  rfl

end CraftAgents
